import Mathlib

/-!
Verification of `src/src/analyzer/dom_analysis_pv_to_atc.py` (Iiqra/watcher-2.0)
against its natural-language specification.

The embedding below translates the pure fragments of the Python source:
* `wait_for_dom_stability` — the DOM stability detector (the sampler
  `page.content()` is abstracted as an arbitrary sequence of sizes
  `ℕ → ℕ`, durations are rationals, and `int(timeout // check_interval)`
  becomes `(⌊timeout / check_interval⌋).toNat`, which agrees with Python's
  floor division followed by `int` for every sign of the operands);
* `normalize_file_name` — string normalization of URLs
  (Python `str.replace` is modelled on `List Char` as left-to-right,
  non-overlapping replacement of every occurrence);
* the file-name / directory computations of `main`;
* the response-handling tail of `main` (fenced-JSON extraction and
  `json.loads` are external library calls, abstracted as parameters);
* a report validator modelled from the specification, since the
  repository contains no `validateReport` (its `main` persists any
  parsed JSON without structural checks).
-/

/-- Result of one stabilization run: whether the page settled and how many
times the sampler was invoked.  The Python function only prints and returns
`None`; `settled` records which of the two exit paths (early `return` after
"DOM has stabilized." versus falling off the loop onto the timeout warning)
was taken, and `samplesTaken` the number of `page.content()` calls made. -/
structure StabilityResult where
  settled : Bool
  samplesTaken : ℕ
  deriving DecidableEq, Repr

/-- The loop body of `wait_for_dom_stability`, fuelled by the remaining
iteration count of `for _ in range(max_checks)`.  State: `i` is the number of
samples already taken, `last` is `last_size` (initially `-1`), `stable` is
`stable_count`. -/
def stabilityLoop (f : ℕ → ℕ) (stable_iterations : ℕ) :
    ℕ → ℕ → ℤ → ℕ → StabilityResult
  | 0, i, _, _ => ⟨false, i⟩
  | fuel + 1, i, last, stable =>
    let size : ℤ := (f i : ℤ)
    if size = last then
      if stable + 1 ≥ stable_iterations then ⟨true, i + 1⟩
      else stabilityLoop f stable_iterations fuel (i + 1) last (stable + 1)
    else stabilityLoop f stable_iterations fuel (i + 1) size 0

/-- `wait_for_dom_stability(page, check_interval, stable_iterations, timeout)`
from the source, with the page handle replaced by the sequence of sizes its
successive `page.content()` calls would report.  `max_checks` is
`int(timeout // check_interval)`. -/
def wait_for_dom_stability (f : ℕ → ℕ) (check_interval : ℚ)
    (stable_iterations : ℕ) (timeout : ℚ) : StabilityResult :=
  stabilityLoop f stable_iterations (Int.toNat ⌊timeout / check_interval⌋) 0 (-1) 0

/-- `max_checks = int(timeout // check_interval)` of the source. -/
def maxChecks (check_interval timeout : ℚ) : ℕ :=
  Int.toNat ⌊timeout / check_interval⌋

/-- The length of the run of consecutive unchanged samples ending at index
`i`: the value `stable_count` holds right after the sample with index `i`
has been processed (the initial `last_size = -1` never equals a size, so
`streak f 0 = 0`). -/
def streak (f : ℕ → ℕ) : ℕ → ℕ
  | 0 => 0
  | i + 1 => if f (i + 1) = f i then streak f i + 1 else 0

/-- A run of `k` consecutive equal sample values inside the first `n`
samples. -/
def hasEqualRun (f : ℕ → ℕ) (k n : ℕ) : Prop :=
  ∃ i, i + k ≤ n ∧ ∀ j < k, f (i + j) = f i

theorem streak_le (f : ℕ → ℕ) : ∀ i, streak f i ≤ i
  | 0 => le_refl 0
  | i + 1 => by
    unfold streak
    split
    · exact Nat.succ_le_succ (streak_le f i)
    · exact Nat.zero_le _

theorem streak_eq_of_le (f : ℕ → ℕ) :
    ∀ i j, j ≤ streak f i → f (i - j) = f i := by
  intro i
  induction i with
  | zero =>
    intro j hj
    simp [streak] at hj
    simp [hj]
  | succ i ih =>
    intro j hj
    unfold streak at hj
    split at hj
    · rename_i heq
      match j with
      | 0 => rfl
      | j + 1 =>
        have hj' : j ≤ streak f i := Nat.le_of_succ_le_succ hj
        have := ih j hj'
        simpa [Nat.succ_sub_succ, heq] using this.trans heq.symm
        -- f (i - j) = f i = f (i+1)
    · interval_cases j
      rfl

theorem streak_succ_eq (f : ℕ → ℕ) (i : ℕ) (h : f (i + 1) = f i) :
    streak f (i + 1) = streak f i + 1 := by
  simp [streak, h]

theorem streak_succ_ne (f : ℕ → ℕ) (i : ℕ) (h : f (i + 1) ≠ f i) :
    streak f (i + 1) = 0 := by
  simp [streak, h]

/-- If the loop, entered with the state reached right after processing sample
`i` without settling, never sees the streak reach the threshold during its
remaining `fuel` iterations, it exhausts the fuel unsettled. -/
theorem stabilityLoop_noSettle (f : ℕ → ℕ) (req : ℕ) (_hreq : 1 ≤ req) :
    ∀ fuel i, (∀ j, i < j → j ≤ i + fuel → streak f j < req) →
      stabilityLoop f req fuel (i + 1) (f i) (streak f i) = ⟨false, i + 1 + fuel⟩ := by
  intro fuel
  induction fuel with
  | zero => intro i _; rfl
  | succ n ih =>
    intro i hstreak
    have hbound : streak f (i + 1) < req :=
      hstreak (i + 1) (Nat.lt_succ_self i) (by omega)
    have harith : i + 1 + (n + 1) = i + 1 + 1 + n := by omega
    have hrec := ih (i + 1) (by intro j hj1 hj2; exact hstreak j (by omega) (by omega))
    by_cases h : f (i + 1) = f i
    · have hs : streak f (i + 1) = streak f i + 1 := streak_succ_eq f i h
      have hlt : ¬ (streak f i + 1 ≥ req) := by omega
      have hcast : ((f (i + 1) : ℤ)) = (f i : ℤ) := by exact_mod_cast h
      rw [hs, hcast] at hrec
      simp only [stabilityLoop]
      rw [harith, if_pos hcast, if_neg hlt]
      exact hrec
    · have hs : streak f (i + 1) = 0 := streak_succ_ne f i h
      have hcast : ((f (i + 1) : ℤ)) ≠ (f i : ℤ) := by exact_mod_cast h
      rw [hs] at hrec
      simp only [stabilityLoop]
      rw [harith, if_neg hcast]
      exact hrec

/-- If `m` is the first index past `i` at which the streak reaches the
threshold, and enough fuel remains, the loop settles right after processing
sample `m`, having taken `m + 1` samples. -/
theorem stabilityLoop_settle (f : ℕ → ℕ) (req : ℕ) (hreq : 1 ≤ req) :
    ∀ fuel i m, i < m → m ≤ i + fuel → req ≤ streak f m →
      (∀ j, i < j → j < m → streak f j < req) →
      stabilityLoop f req fuel (i + 1) (f i) (streak f i) = ⟨true, m + 1⟩ := by
  intro fuel
  induction fuel with
  | zero => intro i m h1 h2 _ _; omega
  | succ n ih =>
    intro i m h1 h2 hm hfirst
    by_cases hmi : m = i + 1
    · subst hmi
      have hpos : 1 ≤ streak f (i + 1) := le_trans hreq hm
      have h : f (i + 1) = f i := by
        by_contra hne
        rw [streak_succ_ne f i hne] at hpos
        omega
      have hs : streak f (i + 1) = streak f i + 1 := streak_succ_eq f i h
      have hge : streak f i + 1 ≥ req := by omega
      have hcast : ((f (i + 1) : ℤ)) = (f i : ℤ) := by exact_mod_cast h
      simp only [stabilityLoop]
      rw [if_pos hcast, if_pos hge]
    · have hmi' : i + 1 < m := by omega
      have hbound : streak f (i + 1) < req := hfirst (i + 1) (Nat.lt_succ_self i) hmi'
      have hrec := ih (i + 1) m hmi' (by omega) hm
        (by intro j hj1 hj2; exact hfirst j (by omega) hj2)
      by_cases h : f (i + 1) = f i
      · have hs : streak f (i + 1) = streak f i + 1 := streak_succ_eq f i h
        have hlt : ¬ (streak f i + 1 ≥ req) := by omega
        have hcast : ((f (i + 1) : ℤ)) = (f i : ℤ) := by exact_mod_cast h
        rw [hs, hcast] at hrec
        simp only [stabilityLoop]
        rw [if_pos hcast, if_neg hlt]
        exact hrec
      · have hs : streak f (i + 1) = 0 := streak_succ_ne f i h
        have hcast : ((f (i + 1) : ℤ)) ≠ (f i : ℤ) := by exact_mod_cast h
        rw [hs] at hrec
        simp only [stabilityLoop]
        rw [if_neg hcast]
        exact hrec

/-- Entering the loop: the first sample never matches `last_size = -1`,
so after one iteration the loop is in the canonical state for `i = 0`. -/
theorem wait_settle (f : ℕ → ℕ) (check_interval timeout : ℚ) (req : ℕ)
    (hreq : 1 ≤ req) (m : ℕ) (hm : m < maxChecks check_interval timeout)
    (hstreak : req ≤ streak f m) (hfirst : ∀ j < m, streak f j < req) :
    wait_for_dom_stability f check_interval req timeout = ⟨true, m + 1⟩ := by
  have hmpos : 1 ≤ m := by
    rcases Nat.eq_zero_or_pos m with h0 | h1
    · subst h0; simp [streak] at hstreak; omega
    · exact h1
  have hentry : wait_for_dom_stability f check_interval req timeout
      = stabilityLoop f req (maxChecks check_interval timeout) 0 (-1) 0 := rfl
  rw [hentry]
  obtain ⟨n, hn⟩ := Nat.exists_eq_succ_of_ne_zero (by omega : maxChecks check_interval timeout ≠ 0)
  rw [hn]
  simp only [stabilityLoop]
  have hne : ((f 0 : ℤ)) ≠ (-1 : ℤ) := by
    have : (0 : ℤ) ≤ (f 0 : ℤ) := Int.natCast_nonneg _
    omega
  rw [if_neg hne]
  exact stabilityLoop_settle f req hreq n 0 m (by omega) (by omega) hstreak
    (by intro j hj1 hj2; exact hfirst j hj2)

/-- Entering the loop in the unsettled case. -/
theorem wait_noSettle (f : ℕ → ℕ) (check_interval timeout : ℚ) (req : ℕ)
    (hreq : 1 ≤ req)
    (hall : ∀ j < maxChecks check_interval timeout, streak f j < req) :
    wait_for_dom_stability f check_interval req timeout
      = ⟨false, maxChecks check_interval timeout⟩ := by
  have hentry : wait_for_dom_stability f check_interval req timeout
      = stabilityLoop f req (maxChecks check_interval timeout) 0 (-1) 0 := rfl
  rw [hentry]
  rcases Nat.eq_zero_or_pos (maxChecks check_interval timeout) with h0 | hpos
  · rw [h0]; rfl
  · obtain ⟨n, hn⟩ := Nat.exists_eq_succ_of_ne_zero (by omega : maxChecks check_interval timeout ≠ 0)
    rw [hn]
    simp only [stabilityLoop]
    have hne : ((f 0 : ℤ)) ≠ (-1 : ℤ) := by
      have : (0 : ℤ) ≤ (f 0 : ℤ) := Int.natCast_nonneg _
      omega
    rw [if_neg hne]
    have hstep := stabilityLoop_noSettle f req hreq n 0
      (by intro j hj1 hj2; exact hall j (by omega))
    have harith : 0 + 1 + n = n + 1 := by omega
    rw [harith] at hstep
    exact hstep

theorem stabilityLoop_samples_le (f : ℕ → ℕ) (req : ℕ) :
    ∀ fuel i last stable,
      (stabilityLoop f req fuel i last stable).samplesTaken ≤ i + fuel := by
  intro fuel
  induction fuel with
  | zero => intro i last stable; simp [stabilityLoop]
  | succ n ih =>
    intro i last stable
    simp only [stabilityLoop]
    split
    · split
      · simp
      · exact le_trans (ih (i + 1) last (stable + 1)) (by omega)
    · exact le_trans (ih (i + 1) _ 0) (by omega)

theorem wait_eq_loop (f : ℕ → ℕ) (check_interval : ℚ) (req : ℕ) (timeout : ℚ) :
    wait_for_dom_stability f check_interval req timeout
      = stabilityLoop f req (maxChecks check_interval timeout) 0 (-1) 0 := rfl

theorem maxChecks_half_five : maxChecks (1/2) 5 = 10 := by
  unfold maxChecks
  norm_num
  decide

theorem maxChecks_half_twoFifths : maxChecks (1/2) (2/5) = 0 := by
  unfold maxChecks
  norm_num

/-- The sampler used in the spec's stability scenario, extended by repeating
its final value: `100, 150, 150, 150, 150, …`. -/
def scenarioSampler : ℕ → ℕ := fun i => if i = 0 then 100 else 150

/-- C1 — counterexample.  On the scenario sequence `[100,150,150,150,…]`
with `requiredStableSamples = 3`, `interval = 0.5`, `timeout = 5`, the
detector does NOT return `samplesTaken = 4`: `stable_count` counts unchanged
observations, so it reaches 3 only at the fifth sample. -/
theorem detectStability_scenario_counterexample :
    wait_for_dom_stability scenarioSampler (1/2) 3 5 = ⟨true, 5⟩ ∧
      wait_for_dom_stability scenarioSampler (1/2) 3 5 ≠ ⟨true, 4⟩ := by
  rw [wait_eq_loop, maxChecks_half_five]
  constructor
  · decide
  · decide

/-- C1 (amended): for every sampler sequence, if `m` is the first index at
which the count of consecutive unchanged samples reaches
`requiredStableSamples` (i.e. the sample at `m` completes a run of
`requiredStableSamples + 1` equal values), and `m` lies within the
`int(timeout // interval)` samples the timeout allows, the detector returns
`settled = true` with `samplesTaken = m + 1` — for the scenario sequence
`100,150,150,150,150,…` with threshold 3 that is `samplesTaken = 5`,
not 4. -/
theorem detectStability_settled_at_first_streak (f : ℕ → ℕ)
    (check_interval timeout : ℚ) (req m : ℕ) (hreq : 1 ≤ req)
    (hm : m + 1 ≤ maxChecks check_interval timeout)
    (hstreak : req ≤ streak f m)
    (hfirst : ∀ j < m, streak f j < req) :
    wait_for_dom_stability f check_interval req timeout = ⟨true, m + 1⟩ :=
  wait_settle f check_interval timeout req hreq m (by omega) hstreak hfirst

/-- Witness for C1 (amended) at the scenario input. -/
theorem detectStability_settled_at_first_streak_witness :
    wait_for_dom_stability scenarioSampler (1/2) 3 5 = ⟨true, 4 + 1⟩ :=
  detectStability_settled_at_first_streak scenarioSampler (1/2) 5 3 4
    (by decide) (by rw [maxChecks_half_five]; decide) (by decide) (by decide)

/-- C4 — counterexample.  With `timeout = 2/5 < 1/2 = interval` the detector
performs zero samples (`max_checks = int(timeout // interval) = 0`), not
exactly one. -/
theorem detectStability_timeout_lt_interval_counterexample :
    (2/5 : ℚ) < 1/2 ∧
      wait_for_dom_stability (fun _ => 100) (1/2) 3 (2/5) = ⟨false, 0⟩ ∧
      (wait_for_dom_stability (fun _ => 100) (1/2) 3 (2/5)).samplesTaken ≠ 1 := by
  rw [wait_eq_loop, maxChecks_half_twoFifths]
  refine ⟨by norm_num, by decide, by decide⟩

/-- C4 (amended): for every timeout strictly smaller than the (positive)
polling interval, the detector performs ZERO calls to the sampler and
returns unsettled — it never loops forever, but it also never reaches the
sampler. -/
theorem detectStability_timeout_lt_interval_zero_samples (f : ℕ → ℕ)
    (check_interval timeout : ℚ) (req : ℕ) (hpos : 0 < check_interval)
    (hlt : timeout < check_interval) :
    wait_for_dom_stability f check_interval req timeout = ⟨false, 0⟩ := by
  have hdiv : timeout / check_interval < 1 := (div_lt_one hpos).mpr hlt
  have hfloor : ⌊timeout / check_interval⌋ < 1 := by
    rw [Int.floor_lt]
    exact_mod_cast hdiv
  have hN : maxChecks check_interval timeout = 0 := by
    unfold maxChecks
    omega
  have hentry : wait_for_dom_stability f check_interval req timeout
      = stabilityLoop f req (maxChecks check_interval timeout) 0 (-1) 0 := rfl
  rw [hentry, hN]
  rfl

/-- Witness for C4 (amended). -/
theorem detectStability_timeout_lt_interval_zero_samples_witness :
    wait_for_dom_stability (fun _ => 7) (1/2) 3 (1/4) = ⟨false, 0⟩ :=
  detectStability_timeout_lt_interval_zero_samples (fun _ => 7) (1/2) (1/4) 3
    (by norm_num) (by norm_num)

/-- C5 (confirmed): for every sampler sequence that never repeats a value
`requiredStableSamples` times in a row within the samples the timeout
allows, the detector returns `settled = false` with `samplesTaken` equal to
the number of samples actually taken, namely all
`int(timeout // interval)` of them. -/
theorem detectStability_noRepeat_not_settled (f : ℕ → ℕ)
    (check_interval timeout : ℚ) (req : ℕ)
    (hno : ¬ hasEqualRun f req (maxChecks check_interval timeout)) :
    wait_for_dom_stability f check_interval req timeout
      = ⟨false, maxChecks check_interval timeout⟩ := by
  have hreq : 1 ≤ req := by
    by_contra hr
    have hreq0 : req = 0 := by omega
    exact hno ⟨0, by omega, by intro j hj; omega⟩
  apply wait_noSettle f check_interval timeout req hreq
  intro j hj
  by_contra hge
  push_neg at hge
  have hjreq : req ≤ j := le_trans hge (streak_le f j)
  have hrun : ∀ l < req, f (j + 1 - req + l) = f j := by
    intro l hl
    have hk : j + 1 - req + l = j - (req - 1 - l) := by omega
    rw [hk]
    exact streak_eq_of_le f j (req - 1 - l) (by omega)
  refine hno ⟨j + 1 - req, by omega, ?_⟩
  intro l hl
  have h0 := hrun 0 (by omega)
  rw [Nat.add_zero] at h0
  rw [hrun l hl]
  exact h0.symm

/-- Witness for C5: strictly increasing sizes never repeat. -/
theorem detectStability_noRepeat_not_settled_witness :
    wait_for_dom_stability (fun i => i) (1/2) 3 5
      = ⟨false, maxChecks (1/2) 5⟩ :=
  detectStability_noRepeat_not_settled (fun i => i) (1/2) 5 3
    (by
      rintro ⟨i, hle, hall⟩
      have h1 := hall 1 (by omega)
      simp at h1)

/-- C9 (confirmed): for every sampler sequence and parameters, the detector
terminates (it is a total function of this embedding) and calls the sampler
at most `int(timeout // check_interval)` times. -/
theorem detectStability_terminates_samples_le (f : ℕ → ℕ)
    (check_interval timeout : ℚ) (req : ℕ) (_hpos : 0 < check_interval) :
    (wait_for_dom_stability f check_interval req timeout).samplesTaken
      ≤ maxChecks check_interval timeout := by
  have hentry : wait_for_dom_stability f check_interval req timeout
      = stabilityLoop f req (maxChecks check_interval timeout) 0 (-1) 0 := rfl
  rw [hentry]
  have := stabilityLoop_samples_le f req (maxChecks check_interval timeout) 0 (-1) 0
  omega

/-- Witness for C9. -/
theorem detectStability_terminates_samples_le_witness :
    (wait_for_dom_stability (fun i => i * i) (1/2) 3 5).samplesTaken
      ≤ maxChecks (1/2) 5 :=
  detectStability_terminates_samples_le (fun i => i * i) (1/2) 5 3 (by norm_num)

/-- Python `str.replace(old, new)` on character lists: left-to-right,
non-overlapping replacement of every occurrence of `pat` by `rep`.  The
fuel argument decreases by one consumed character per step; fuel at least
the length of the input makes the definition total (`replaceChars`). -/
def replaceGo (pat rep : List Char) : List Char → ℕ → List Char
  | s, 0 => s
  | [], _ + 1 => []
  | c :: cs, n + 1 =>
    if 0 < pat.length ∧ pat.isPrefixOf (c :: cs) then
      rep ++ replaceGo pat rep (cs.drop (pat.length - 1)) n
    else
      c :: replaceGo pat rep cs n

/-- `s.replace(pat, rep)` for a non-empty `pat`. -/
def replaceChars (pat rep s : List Char) : List Char :=
  replaceGo pat rep s s.length

/-- `normalize_file_name` from the source:
`filename.replace("https://", "").replace("http://", "").replace("/", "")`. -/
def normalize_file_name (filename : String) : String :=
  ⟨replaceChars "/".data []
    (replaceChars "http://".data []
      (replaceChars "https://".data [] filename.data))⟩

/-- Replacement is the identity whenever some character of the pattern does
not occur in the string (the pattern then never matches). -/
theorem replaceGo_eq_of_not_mem (pat rep : List Char) (c : Char) (hc : c ∈ pat) :
    ∀ n s, c ∉ s → replaceGo pat rep s n = s := by
  intro n
  induction n with
  | zero => intro s _; cases s <;> rfl
  | succ m ih =>
    intro s hs
    match s with
    | [] => rfl
    | a :: as =>
      have hnp : ¬ (0 < pat.length ∧ pat.isPrefixOf (a :: as)) := by
        rintro ⟨-, hpre⟩
        have hsub : pat ⊆ a :: as :=
          (List.isPrefixOf_iff_prefix.mp hpre).subset
        exact hs (hsub hc)
      rw [replaceGo, if_neg hnp]
      have : c ∉ as := fun h => hs (List.mem_cons_of_mem a h)
      rw [ih as this]

/-- After replacing every occurrence of the single character `c` by nothing,
`c` no longer occurs (given enough fuel). -/
theorem not_mem_replaceGo_single (c : Char) :
    ∀ n s, List.length s ≤ n → c ∉ replaceGo [c] [] s n := by
  intro n
  induction n with
  | zero =>
    intro s hs
    have : s = [] := List.eq_nil_of_length_eq_zero (Nat.le_zero.mp hs)
    subst this
    simp [replaceGo]
  | succ m ih =>
    intro s hs
    match s with
    | [] => simp [replaceGo]
    | a :: as =>
      by_cases hac : a = c
      · subst hac
        have hpre : (0 < ([a] : List Char).length ∧ ([a]).isPrefixOf (a :: as)) := by
          refine ⟨by simp, ?_⟩
          simp [List.isPrefixOf]
        rw [replaceGo, if_pos hpre]
        simp only [List.length_singleton, Nat.sub_self, List.drop_zero, List.nil_append]
        exact ih as (by simpa using Nat.le_of_succ_le_succ hs)
      · have hnp : ¬ (0 < ([c] : List Char).length ∧ ([c]).isPrefixOf (a :: as)) := by
          rintro ⟨-, hpre⟩
          rcases List.isPrefixOf_iff_prefix.mp hpre with ⟨t, ht⟩
          have : c = a := by
            have := congrArg (fun l => l.head?) ht
            simpa using this
          exact hac this.symm
        rw [replaceGo, if_neg hnp]
        intro hmem
        rcases List.mem_cons.mp hmem with h | h
        · exact hac h.symm
        · exact ih as (by simpa using Nat.le_of_succ_le_succ hs) h

theorem replaceChars_eq_of_not_mem (pat rep : List Char) (c : Char)
    (hc : c ∈ pat) (l : List Char) (hl : c ∉ l) :
    replaceChars pat rep l = l :=
  replaceGo_eq_of_not_mem pat rep c hc l.length l hl

theorem slash_not_mem_replaceChars (l : List Char) :
    '/' ∉ replaceChars "/".data [] l := by
  have h : "/".data = ['/'] := by decide
  rw [replaceChars, h]
  exact not_mem_replaceGo_single '/' l.length l (le_refl _)

/-- A string without slashes is a fixed point of `normalize_file_name`:
each of the three patterns contains `'/'`, so none of them can match. -/
theorem normalize_file_name_fixed (t : String) (h : '/' ∉ t.data) :
    normalize_file_name t = t := by
  have h1 : replaceChars "https://".data [] t.data = t.data :=
    replaceChars_eq_of_not_mem _ _ '/' (by decide) _ h
  have h2 : replaceChars "http://".data [] t.data = t.data :=
    replaceChars_eq_of_not_mem _ _ '/' (by decide) _ h
  have h3 : replaceChars "/".data [] t.data = t.data :=
    replaceChars_eq_of_not_mem _ _ '/' (by decide) _ h
  show (⟨replaceChars "/".data []
    (replaceChars "http://".data []
      (replaceChars "https://".data [] t.data))⟩ : String) = t
  rw [h1, h2, h3]

/-- C10 (confirmed): `normalize_file_name` is idempotent — its output
contains no `'/'`, and every pattern it strips contains one. -/
theorem normalize_file_name_idempotent (s : String) :
    normalize_file_name (normalize_file_name s) = normalize_file_name s := by
  apply normalize_file_name_fixed
  exact slash_not_mem_replaceChars _

/-- The default URL of `main`:
`target_url = sys.argv[1] if len(sys.argv) > 1 else "https://www.grass-direct.co.uk/"`. -/
def defaultUrl : String := "https://www.grass-direct.co.uk/"

/-- `target_url` as a function of the optional first CLI argument. -/
def target_url (argv1 : Option String) : String := argv1.getD defaultUrl

/-- The directory `main` prepares in step 1.a:
`"../selectors/{}".format(normalize_file_name(target_url))`. -/
def preparedDir (argv1 : Option String) : String :=
  "../selectors/" ++ normalize_file_name (target_url argv1)

/-- The `file_name` computed before writing the report:
`file_name = sys.argv[1] if len(sys.argv) > 1 else "www.grass-direct.co.uk.json"`,
then normalized only when it differs from that default literal. -/
def outFileKey (argv1 : Option String) : String :=
  let file_name := argv1.getD "www.grass-direct.co.uk.json"
  if file_name ≠ "www.grass-direct.co.uk.json" then normalize_file_name file_name
  else file_name

/-- The directory component of the path handed to `open`:
`"../selectors/{}/pv_to_atc.json".format(file_name)`. -/
def writeDir (argv1 : Option String) : String :=
  "../selectors/" ++ outFileKey argv1

/-- The full path handed to `open`. -/
def writePath (argv1 : Option String) : String :=
  "../selectors/" ++ outFileKey argv1 ++ "/pv_to_atc.json"

/-- C7 — the code diverges from the claim on the default URL.  With no CLI
argument, `main` prepares the directory `../selectors/www.grass-direct.co.uk`
(the normalized URL) but opens the report file under the unnormalized key
`www.grass-direct.co.uk.json`, so the write path disagrees with the prepared
directory; for an explicitly supplied URL the two agree. -/
theorem mainWrite_default_key_mismatch :
    outFileKey none ≠ normalize_file_name (target_url none) ∧
      writeDir none ≠ preparedDir none ∧
      outFileKey (some "https://www.example.com/shop/")
        = normalize_file_name (target_url (some "https://www.example.com/shop/")) := by
  refine ⟨?_, ?_, ?_⟩ <;> decide

/-- JSON values as `json.loads` produces them, with numbers restricted to
the integers (the only numbers the selector contract uses). -/
inductive JsonVal where
  | null
  | bool (b : Bool)
  | num (n : ℤ)
  | str (s : String)
  | arr (elems : List JsonVal)
  | obj (fields : List (String × JsonVal))

/-- Modelled from the spec: the validation errors of §4.2/§7 — a
`SchemaViolation` names the offending path and the expected shape;
`EmptySelectorObject` is the specific subtype for a SelectorObject whose
three selector fields are all empty. -/
inductive ValidationError where
  | missingKey (path : String)
  | wrongType (path : String) (expected : String)
  | invalidStatus (path : String)
  | priorityOutOfRange (path : String) (lo hi : ℤ)
  | emptySelectorObject (path : String)
  deriving DecidableEq, Repr

/-- First binding of a key in an object's field list. -/
def getKey (fields : List (String × JsonVal)) (k : String) : Option JsonVal :=
  match fields with
  | [] => none
  | (k', v) :: rest => if k' = k then some v else getKey rest k

/-- Field lookup on a JSON value (objects only). -/
def JsonVal.getField : JsonVal → String → Option JsonVal
  | .obj fields, k => getKey fields k
  | _, _ => none

/-- Lookup along a path of keys. -/
def getPath : JsonVal → List String → Option JsonVal
  | v, [] => some v
  | v, k :: ks =>
    match v.getField k with
    | some w => getPath w ks
    | none => none

/-- Dotted rendering of a path, as error messages report it. -/
def pathString (segs : List String) : String :=
  String.intercalate "." segs

/-- Modelled from the spec: validation of one SelectorObject (§3, §4.2) —
`selectors.primary` and `selectors.xpath` must be strings,
`selectors.secondary` a possibly-empty sequence of non-empty strings,
`priority` an integer in `[1, 5]`, and the three selector fields must not
be simultaneously empty (`EmptySelectorObject`). -/
def validateSelectorObject (path : String) (v : JsonVal) : List ValidationError :=
  match v with
  | .obj _ =>
    let selErrs :=
      match v.getField "selectors" with
      | none => [ValidationError.missingKey (path ++ ".selectors")]
      | some sel =>
        match sel with
        | .obj _ =>
          let primErrs :=
            match sel.getField "primary" with
            | some (.str _) => []
            | some _ => [ValidationError.wrongType (path ++ ".selectors.primary") "string"]
            | none => [ValidationError.missingKey (path ++ ".selectors.primary")]
          let secErrs :=
            match sel.getField "secondary" with
            | some (.arr es) =>
              es.flatMap fun e =>
                match e with
                | .str s =>
                  if s = "" then
                    [ValidationError.wrongType (path ++ ".selectors.secondary") "non-empty string"]
                  else []
                | _ => [ValidationError.wrongType (path ++ ".selectors.secondary") "non-empty string"]
            | some _ => [ValidationError.wrongType (path ++ ".selectors.secondary") "array of strings"]
            | none => [ValidationError.missingKey (path ++ ".selectors.secondary")]
          let xpathErrs :=
            match sel.getField "xpath" with
            | some (.str _) => []
            | some _ => [ValidationError.wrongType (path ++ ".selectors.xpath") "string"]
            | none => [ValidationError.missingKey (path ++ ".selectors.xpath")]
          let emptyErrs :=
            match sel.getField "primary", sel.getField "secondary", sel.getField "xpath" with
            | some (.str ""), some (.arr []), some (.str "") =>
              [ValidationError.emptySelectorObject path]
            | _, _, _ => []
          primErrs ++ secErrs ++ xpathErrs ++ emptyErrs
        | _ => [ValidationError.wrongType (path ++ ".selectors") "object"]
    let prioErrs :=
      match v.getField "priority" with
      | some (.num n) =>
        if 1 ≤ n ∧ n ≤ 5 then []
        else [ValidationError.priorityOutOfRange (path ++ ".priority") 1 5]
      | some _ => [ValidationError.wrongType (path ++ ".priority") "integer"]
      | none => [ValidationError.missingKey (path ++ ".priority")]
    selErrs ++ prioErrs
  | _ => [ValidationError.wrongType path "SelectorObject"]

/-- Modelled from the spec: the fixed, known SelectorObject positions of the
contract's `elements` block (§3). -/
def selectorPaths : List (List String) :=
  [["elements", "cookies", "accept"],
   ["elements", "cookies", "decline"],
   ["elements", "cookies", "settings"],
   ["elements", "cookies", "acceptAll"],
   ["elements", "cookies", "rejectAll"],
   ["elements", "product", "stock"],
   ["elements", "product", "price"],
   ["elements", "product", "addToCart"],
   ["elements", "addtocart", "button"],
   ["elements", "addtocart", "cart"],
   ["elements", "checkout", "button"],
   ["elements", "checkout", "cart"]]

/-- Errors contributed by the SelectorObject at one contract position,
validated only when present (the spec's structural requirements name the
top-level keys; block entries are validated as SelectorObjects when the
producer supplies them). -/
def selectorErrorsAt (c : JsonVal) (segs : List String) : List ValidationError :=
  match getPath c segs with
  | none => []
  | some v => validateSelectorObject (pathString segs) v

/-- Modelled from the spec: boolean flags that default to `false` when
absent (§4.2), so absence is not an error but a present non-boolean is. -/
def booleanPaths : List (List String) :=
  [["elements", "hasCookieBanner"],
   ["elements", "cookies", "marketingChoices"],
   ["elements", "cookies", "analyticsChoices"],
   ["elements", "cookies", "functionalChoices"]]

def booleanErrorsAt (c : JsonVal) (segs : List String) : List ValidationError :=
  match getPath c segs with
  | none => []
  | some (.bool _) => []
  | some _ => [ValidationError.wrongType (pathString segs) "boolean"]

/-- Modelled from the spec: popup validation (§4.2) — `frequencyLimit` may
be null (undetermined) or a string (the empty string meaning "confirmed: no
limit"); each popup must be an object, `elements.popups` an array. -/
def popupErrors (c : JsonVal) : List ValidationError :=
  match getPath c ["elements", "popups"] with
  | none => []
  | some (.arr es) =>
    es.flatMap fun e =>
      match e with
      | .obj _ =>
        match e.getField "frequencyLimit" with
        | none => []
        | some .null => []
        | some (.str _) => []
        | some _ => [ValidationError.wrongType "elements.popups.frequencyLimit" "string or null"]
      | _ => [ValidationError.wrongType "elements.popups" "PopupObject"]
  | some _ => [ValidationError.wrongType "elements.popups" "array"]

/-- Modelled from the spec: the required top-level keys of the contract
(§4.2 structural validation). -/
def requiredTopKeys : List String :=
  ["url", "timestamp", "elements", "notes", "status"]

def requiredKeyErrors (c : JsonVal) : List ValidationError :=
  requiredTopKeys.flatMap fun k =>
    match c.getField k with
    | some _ => []
    | none => [ValidationError.missingKey k]

/-- Modelled from the spec: `status` must be one of the three enumerated
values when present (its absence is already a missing-key error). -/
def statusErrors (c : JsonVal) : List ValidationError :=
  match c.getField "status" with
  | some (.str s) =>
    if s = "success" ∨ s = "partial" ∨ s = "failed" then []
    else [ValidationError.invalidStatus "status"]
  | some _ => [ValidationError.wrongType "status" "string"]
  | none => []

/-- Modelled from the spec: `validateReport`'s full list of violations for a
candidate.  The repository's `main` persists any parsed JSON without
structural checks, so this validator is modelled from §4.2: required
top-level keys, the `status` enumeration, SelectorObject validation at each
known contract position, defaulting boolean flags, popup validation;
unknown extra keys are tolerated. -/
def reportErrors (c : JsonVal) : List ValidationError :=
  match c with
  | .obj _ =>
    requiredKeyErrors c ++ statusErrors c
      ++ (selectorPaths.flatMap fun segs => selectorErrorsAt c segs)
      ++ (booleanPaths.flatMap fun segs => booleanErrorsAt c segs)
      ++ popupErrors c
  | _ => [ValidationError.wrongType "$" "object"]

/-- Modelled from the spec: a validated report.  Validation passes the whole
candidate through (unknown keys tolerated, §4.2), so the report is the
candidate value together with the fact that it validates cleanly. -/
structure AnalysisReport where
  raw : JsonVal
  valid : reportErrors raw = []

/-- Modelled from the spec: `validateReport(candidate) ->
Result<AnalysisReport, ValidationError[]>` — all-or-nothing: either the
whole candidate becomes an `AnalysisReport`, or the full list of violations
is returned and no report is produced. -/
def validateReport (candidate : JsonVal) : Except (List ValidationError) AnalysisReport :=
  if h : reportErrors candidate = [] then .ok ⟨candidate, h⟩
  else .error (reportErrors candidate)

/-- Serialization of a validated report back to a JSON value: validation is
pass-through (§4.2 tolerates and passes through unknown keys), so the
serialized form is the underlying candidate value. -/
def AnalysisReport.toJson (r : AnalysisReport) : JsonVal := r.raw

theorem validateReport_error_of_ne (c : JsonVal) (h : reportErrors c ≠ []) :
    validateReport c = .error (reportErrors c) := by
  unfold validateReport
  rw [dif_neg h]

/-- A successful path lookup along a non-empty path forces the root value to
be an object. -/
theorem getPath_cons_obj {c v : JsonVal} {k : String} {ks : List String}
    (h : getPath c (k :: ks) = some v) : ∃ fs, c = JsonVal.obj fs := by
  cases c with
  | obj fs => exact ⟨fs, rfl⟩
  | null => simp [getPath, JsonVal.getField] at h
  | bool b => simp [getPath, JsonVal.getField] at h
  | num n => simp [getPath, JsonVal.getField] at h
  | str s => simp [getPath, JsonVal.getField] at h
  | arr es => simp [getPath, JsonVal.getField] at h

/-- A SelectorObject that is fully well-formed except for its `priority`
value `n`. -/
def selObjWithPriority (n : ℤ) : JsonVal :=
  JsonVal.obj
    [("elementType", JsonVal.str "cookieAcceptAll"),
     ("selectors", JsonVal.obj
       [("primary", JsonVal.str "#accept-all"),
        ("secondary", JsonVal.arr []),
        ("xpath", JsonVal.str "")]),
     ("location", JsonVal.str "banner"),
     ("priority", JsonVal.num n)]

theorem validateSelectorObject_priority (path : String) (n : ℤ)
    (hn : n < 1 ∨ 5 < n) :
    validateSelectorObject path (selObjWithPriority n)
      = [ValidationError.priorityOutOfRange (path ++ ".priority") 1 5] := by
  have hstep : validateSelectorObject path (selObjWithPriority n)
      = (if 1 ≤ n ∧ n ≤ 5 then []
         else [ValidationError.priorityOutOfRange (path ++ ".priority") 1 5]) := rfl
  rw [hstep, if_neg (by omega)]

/-- C2 (spec-modelled, confirmed): a candidate missing the required
top-level `status` key is rejected with a violation naming `status`, and a
candidate whose `elements.cookies.acceptAll` SelectorObject carries a
priority outside `[1, 5]` is rejected with a violation naming
`elements.cookies.acceptAll.priority` and the allowed range; in both cases
`validateReport` returns the full violation list and produces no report. -/
theorem validateReport_rejects_structural_violations :
    (∀ fields : List (String × JsonVal),
        JsonVal.getField (JsonVal.obj fields) "status" = none →
        ValidationError.missingKey "status" ∈ reportErrors (JsonVal.obj fields) ∧
        validateReport (JsonVal.obj fields)
          = .error (reportErrors (JsonVal.obj fields))) ∧
    (∀ (c : JsonVal) (n : ℤ),
        getPath c ["elements", "cookies", "acceptAll"] = some (selObjWithPriority n) →
        (n < 1 ∨ 5 < n) →
        ValidationError.priorityOutOfRange "elements.cookies.acceptAll.priority" 1 5
          ∈ reportErrors c ∧
        validateReport c = .error (reportErrors c)) := by
  constructor
  · intro fields hstat
    have hmem : ValidationError.missingKey "status"
        ∈ requiredKeyErrors (JsonVal.obj fields) := by
      apply List.mem_flatMap.mpr
      refine ⟨"status", by decide, ?_⟩
      rw [hstat]
      simp
    have hrep : ValidationError.missingKey "status"
        ∈ reportErrors (JsonVal.obj fields) := by
      simp only [reportErrors]
      exact List.mem_append_left _ (List.mem_append_left _
        (List.mem_append_left _ (List.mem_append_left _ hmem)))
    exact ⟨hrep, validateReport_error_of_ne _ (List.ne_nil_of_mem hrep)⟩
  · intro c n hpath hn
    obtain ⟨fs, rfl⟩ := getPath_cons_obj hpath
    have hsel : ValidationError.priorityOutOfRange
        "elements.cookies.acceptAll.priority" 1 5
        ∈ selectorErrorsAt (JsonVal.obj fs) ["elements", "cookies", "acceptAll"] := by
      unfold selectorErrorsAt
      rw [hpath]
      have hps : pathString ["elements", "cookies", "acceptAll"]
          = "elements.cookies.acceptAll" := by decide
      rw [hps]
      show ValidationError.priorityOutOfRange
          "elements.cookies.acceptAll.priority" 1 5
        ∈ validateSelectorObject "elements.cookies.acceptAll" (selObjWithPriority n)
      rw [validateSelectorObject_priority _ n hn]
      simp
    have hrep : ValidationError.priorityOutOfRange
        "elements.cookies.acceptAll.priority" 1 5
        ∈ reportErrors (JsonVal.obj fs) := by
      simp only [reportErrors]
      refine List.mem_append_left _ (List.mem_append_left _
        (List.mem_append_right _ ?_))
      exact List.mem_flatMap.mpr ⟨["elements", "cookies", "acceptAll"], by decide, hsel⟩
    exact ⟨hrep, validateReport_error_of_ne _ (List.ne_nil_of_mem hrep)⟩

/-- A candidate with every required key except `status`. -/
def missingStatusCand : JsonVal :=
  JsonVal.obj
    [("url", JsonVal.str "https://www.example.com/"),
     ("timestamp", JsonVal.str "2025-01-01T00:00:00Z"),
     ("elements", JsonVal.obj []),
     ("notes", JsonVal.arr [])]

/-- A candidate whose `elements.cookies.acceptAll.priority` is 7. -/
def priority7Cand : JsonVal :=
  JsonVal.obj
    [("url", JsonVal.str "https://www.example.com/"),
     ("timestamp", JsonVal.str "2025-01-01T00:00:00Z"),
     ("elements", JsonVal.obj
       [("cookies", JsonVal.obj [("acceptAll", selObjWithPriority 7)])]),
     ("notes", JsonVal.arr []),
     ("status", JsonVal.str "success")]

/-- Witness for C2 at the two scenario inputs. -/
theorem validateReport_rejects_structural_violations_witness :
    (ValidationError.missingKey "status" ∈ reportErrors missingStatusCand ∧
      validateReport missingStatusCand = .error (reportErrors missingStatusCand)) ∧
    (ValidationError.priorityOutOfRange "elements.cookies.acceptAll.priority" 1 5
        ∈ reportErrors priority7Cand ∧
      validateReport priority7Cand = .error (reportErrors priority7Cand)) :=
  ⟨validateReport_rejects_structural_violations.1
      [("url", JsonVal.str "https://www.example.com/"),
       ("timestamp", JsonVal.str "2025-01-01T00:00:00Z"),
       ("elements", JsonVal.obj []),
       ("notes", JsonVal.arr [])] rfl,
   validateReport_rejects_structural_violations.2 priority7Cand 7 rfl (by omega)⟩

/-- A SelectorObject whose three selector fields are all empty, with an
arbitrary element type, location and priority. -/
def emptySelObj (et loc : String) (n : ℤ) : JsonVal :=
  JsonVal.obj
    [("elementType", JsonVal.str et),
     ("selectors", JsonVal.obj
       [("primary", JsonVal.str ""),
        ("secondary", JsonVal.arr []),
        ("xpath", JsonVal.str "")]),
     ("location", JsonVal.str loc),
     ("priority", JsonVal.num n)]

theorem validateSelectorObject_empty (path : String) (et loc : String) (n : ℤ)
    (h1 : 1 ≤ n) (h5 : n ≤ 5) :
    validateSelectorObject path (emptySelObj et loc n)
      = [ValidationError.emptySelectorObject path] := by
  have hstep : validateSelectorObject path (emptySelObj et loc n)
      = [ValidationError.emptySelectorObject path]
          ++ (if 1 ≤ n ∧ n ≤ 5 then []
              else [ValidationError.priorityOutOfRange (path ++ ".priority") 1 5]) := rfl
  rw [hstep, if_pos (by omega)]
  rfl

/-- C3 (spec-modelled, confirmed): a candidate carrying, at any of the
contract's SelectorObject positions, a SelectorObject whose `primary` is
`""`, `secondary` is `[]` and `xpath` is `""` is rejected with an
`EmptySelectorObject` violation naming that position, regardless of its
(valid) priority; the candidate never becomes a report. -/
theorem validateReport_rejects_empty_selector :
    ∀ (c : JsonVal) (segs : List String) (et loc : String) (n : ℤ),
      segs ∈ selectorPaths →
      getPath c segs = some (emptySelObj et loc n) →
      1 ≤ n → n ≤ 5 →
      ValidationError.emptySelectorObject (pathString segs) ∈ reportErrors c ∧
      validateReport c = .error (reportErrors c) := by
  intro c segs et loc n hsegs hpath h1 h5
  have hne : ∃ k ks, segs = k :: ks := by
    match segs, hsegs with
    | k :: ks, _ => exact ⟨k, ks, rfl⟩
    | [], hsegs => simp [selectorPaths] at hsegs
  obtain ⟨k, ks, rfl⟩ := hne
  obtain ⟨fs, rfl⟩ := getPath_cons_obj hpath
  have hsel : ValidationError.emptySelectorObject (pathString (k :: ks))
      ∈ selectorErrorsAt (JsonVal.obj fs) (k :: ks) := by
    unfold selectorErrorsAt
    rw [hpath]
    show ValidationError.emptySelectorObject (pathString (k :: ks))
      ∈ validateSelectorObject (pathString (k :: ks)) (emptySelObj et loc n)
    rw [validateSelectorObject_empty _ et loc n h1 h5]
    simp
  have hrep : ValidationError.emptySelectorObject (pathString (k :: ks))
      ∈ reportErrors (JsonVal.obj fs) := by
    simp only [reportErrors]
    refine List.mem_append_left _ (List.mem_append_left _
      (List.mem_append_right _ ?_))
    exact List.mem_flatMap.mpr ⟨k :: ks, hsegs, hsel⟩
  exact ⟨hrep, validateReport_error_of_ne _ (List.ne_nil_of_mem hrep)⟩

/-- A candidate whose `elements.cookies.accept` SelectorObject is vacuous
(all three selector fields empty) with a valid priority of 3. -/
def emptySelectorCand : JsonVal :=
  JsonVal.obj
    [("url", JsonVal.str "https://www.example.com/"),
     ("timestamp", JsonVal.str "2025-01-01T00:00:00Z"),
     ("elements", JsonVal.obj
       [("cookies", JsonVal.obj [("accept", emptySelObj "cookieAccept" "banner" 3)])]),
     ("notes", JsonVal.arr []),
     ("status", JsonVal.str "partial")]

/-- Witness for C3 at a concrete vacuous SelectorObject. -/
theorem validateReport_rejects_empty_selector_witness :
    ValidationError.emptySelectorObject
        (pathString ["elements", "cookies", "accept"])
      ∈ reportErrors emptySelectorCand ∧
    validateReport emptySelectorCand = .error (reportErrors emptySelectorCand) :=
  validateReport_rejects_empty_selector emptySelectorCand
    ["elements", "cookies", "accept"] "cookieAccept" "banner" 3
    (by decide) rfl (by decide) (by decide)

/-- C8 (spec-modelled, confirmed): validation is idempotent under
serialization — a report that passed `validateReport`, serialized back to a
JSON value, validates again, to the very same report. -/
theorem validateReport_roundtrip (c : JsonVal) (r : AnalysisReport)
    (h : validateReport c = .ok r) :
    validateReport (AnalysisReport.toJson r) = .ok r := by
  unfold validateReport at h ⊢
  by_cases hv : reportErrors c = []
  · rw [dif_pos hv] at h
    injection h with h2
    subst h2
    simp only [AnalysisReport.toJson]
    rw [dif_pos hv]
  · rw [dif_neg hv] at h
    simp at h

/-- A minimal structurally valid candidate. -/
def sampleCand : JsonVal :=
  JsonVal.obj
    [("url", JsonVal.str "https://www.example.com/"),
     ("timestamp", JsonVal.str "2025-01-01T00:00:00Z"),
     ("elements", JsonVal.obj []),
     ("notes", JsonVal.arr []),
     ("status", JsonVal.str "success")]

/-- Witness for C8 at a concrete valid report. -/
theorem validateReport_roundtrip_witness :
    validateReport (AnalysisReport.toJson ⟨sampleCand, rfl⟩)
      = .ok ⟨sampleCand, rfl⟩ :=
  validateReport_roundtrip sampleCand ⟨sampleCand, rfl⟩ rfl

/-- What the response-handling tail of `main` does after the analysis call:
either the extracted fenced JSON string is parsed and written under the
report path, or the unparseable text is printed and nothing is written. -/
inductive ResponseOutcome where
  | persisted (path : String) (contents : String)
  | rawSurfaced (text : String)
  | noJsonBlock (text : String)
  deriving DecidableEq, Repr

/-- The response-handling tail of `main` (the `re.search` for a fenced
```json block and `json.loads` are external library calls, abstracted as
the parameters `extractFenced` and `parseJson`): on a parse failure the
raw string is printed and no file is written; with no fenced block the
whole combined text is printed and no file is written. -/
def handleResponse (extractFenced : String → Option String)
    (parseJson : String → Option JsonVal) (argv1 : Option String)
    (combined_text : String) : ResponseOutcome :=
  match extractFenced combined_text with
  | some json_str =>
    match parseJson json_str with
    | some _ => .persisted (writePath argv1) json_str
    | none => .rawSurfaced json_str
  | none => .noJsonBlock combined_text

/-- C6 (confirmed): whenever the producer's response cannot be parsed as
JSON, the unparseable text is surfaced verbatim and no report is persisted
— both when the fenced block's contents fail `json.loads` and when no
fenced JSON block exists at all; the failure is never turned into a
persisted report. -/
theorem producerMalformedOutput_surfaced
    (extractFenced : String → Option String)
    (parseJson : String → Option JsonVal) (argv1 : Option String)
    (combined_text json_str : String)
    (hex : extractFenced combined_text = some json_str)
    (hp : parseJson json_str = none) :
    handleResponse extractFenced parseJson argv1 combined_text
        = .rawSurfaced json_str ∧
      (∀ p c, handleResponse extractFenced parseJson argv1 combined_text
        ≠ .persisted p c) ∧
      (∀ extractNone : String → Option String,
        extractNone combined_text = none →
        handleResponse extractNone parseJson argv1 combined_text
          = .noJsonBlock combined_text) := by
  refine ⟨?_, ?_, ?_⟩
  · simp only [handleResponse, hex, hp]
  · intro p c
    simp only [handleResponse, hex, hp]
    intro h
    cases h
  · intro extractNone hnone
    simp only [handleResponse, hnone]

/-- Witness for C6 at concrete extraction and parse functions. -/
theorem producerMalformedOutput_surfaced_witness :
    handleResponse (fun s => some s) (fun _ => none) none "not json at all"
        = .rawSurfaced "not json at all" ∧
      (∀ p c, handleResponse (fun s => some s) (fun _ => none) none "not json at all"
        ≠ .persisted p c) ∧
      (∀ extractNone : String → Option String,
        extractNone "not json at all" = none →
        handleResponse extractNone (fun _ => none) none "not json at all"
          = .noJsonBlock "not json at all") :=
  producerMalformedOutput_surfaced (fun s => some s) (fun _ => none) none
    "not json at all" "not json at all" rfl rfl
